import Mathlib

/-!
Verification of the field-mapping and import core of the onBoarding
repository (a CSV/XLSX → CRM import wizard).  The definitions below are a
shallow embedding of the TypeScript source:

* `src/frontend/src/types/index.ts` — data model (`FieldMapping`,
  `ExtendedCRMField`, `SalesmapField`, `RecommendedField`, `ImportResponse`).
* `src/frontend/src/components/FieldMapper/FieldMapper.tsx` — `loadFields`
  (registry + recommended-field reconciliation + cold-start auto-match),
  `handleMappingChange`, `isFieldUsed`, `handleRemoveCustomField`,
  `handleAiAutoMap`, and the needs-creation warning block.
* `src/frontend/src/components/ObjectSelector/ObjectSelector.tsx` —
  `needsConnectionObject` and the connection warning text.
* `src/frontend/src/pages/Onboarding.tsx` — `canProgress`,
  `handleImportAll`, `handleImportValid` guards.
* `src/frontend/src/services/api.ts` — `importData` (row filtering by
  valid row indices and the success response).

JavaScript strings are modelled as Lean `String`, JS arrays as `List`,
JS records (objects used as maps) as association lists in insertion order.
-/

namespace OnBoarding

/-- `FieldMapping` from `types/index.ts`: `source_column` is a raw file
column header, `target_field` has the format `"objectType.fieldId"`. -/
structure FieldMapping where
  source_column : String
  target_field : String
  deriving DecidableEq, Repr

/-- `SalesmapField` from `types/index.ts` (fields fetched from the CRM).
The `editable` component is never read by the mapping core and is omitted. -/
structure SalesmapField where
  id : String
  label : String
  ftype : String
  required : Bool
  is_system : Bool
  is_custom : Bool
  deriving DecidableEq, Repr

/-- `ExtendedCRMField` from `FieldMapper.tsx` (a CRM field tagged with its
object type).  JS leaves `isCustom`/`needsCreation` possibly `undefined`;
`undefined` is falsy everywhere the code reads them, so both are `Bool`. -/
structure ExtendedCRMField where
  id : String
  label : String
  ftype : String
  required : Bool
  objectType : String
  objectName : String
  isCustom : Bool
  needsCreation : Bool
  deriving DecidableEq, Repr

/-- `RecommendedField` from `types/index.ts` (AI consulting output).  The
`reason` component is display-only and omitted. -/
structure RecommendedField where
  objectType : String
  fieldId : String
  fieldLabel : String
  deriving DecidableEq, Repr

/-- `Record<string, SalesmapField[]>` — the per-object-type field map. -/
def SalesmapFieldsMap : Type := List (String × List SalesmapField)

/-- JS `salesmapFields[objType] || []`. -/
def lookupFields (m : SalesmapFieldsMap) (objType : String) : List SalesmapField :=
  match List.find? (fun p => p.1 == objType) m with
  | some p => p.2
  | none => []

/-- `OBJECT_NAMES[t]` from `FieldMapper.tsx` (the four fixed display names). -/
def objectNameMap (t : String) : Option String :=
  if t == "company" then some "회사"
  else if t == "people" then some "고객"
  else if t == "lead" then some "리드"
  else if t == "deal" then some "딜"
  else none

/-- JS `OBJECT_NAMES[objType] || objType`. -/
def objectNameOf (t : String) : String := (objectNameMap t).getD t

/-- The registry part of `loadFields` (FieldMapper.tsx lines 99-114): for each
selected object type, take the fetched fields, drop system fields, and tag
each with its object type; `needsCreation` is set to `false`. -/
def registryFields (objectTypes : List String) (smf : SalesmapFieldsMap) :
    List ExtendedCRMField :=
  objectTypes.flatMap fun objType =>
    ((lookupFields smf objType).filter (fun f => !f.is_system)).map fun f =>
      { id := f.id, label := f.label, ftype := f.ftype, required := f.required,
        objectType := objType, objectName := objectNameOf objType,
        isCustom := f.is_custom, needsCreation := false }

/-- One step of the recommended-field reconciliation (FieldMapper.tsx lines
117-138): skip when a fetched field of the same object type already has the
recommended id (note: checked against all fetched fields, system ones
included); skip when an entry with the same `(objectType, id)` was already
accumulated; otherwise append a synthesized field with `needsCreation := true`
and type `"text"`. -/
def addRecommended (smf : SalesmapFieldsMap) (acc : List ExtendedCRMField)
    (rf : RecommendedField) : List ExtendedCRMField :=
  if (lookupFields smf rf.objectType).any (fun f => f.id == rf.fieldId) then acc
  else if acc.any (fun f =>
      f.objectType == rf.objectType && f.id == rf.fieldId) then acc
  else acc ++ [{ id := rf.fieldId, label := rf.fieldLabel, ftype := "text",
                 required := false, objectType := rf.objectType,
                 objectName := objectNameOf rf.objectType,
                 isCustom := false, needsCreation := true }]

/-- `fieldsByObject` after the recommended-field loop of `loadFields`. -/
def fieldsByObject (objectTypes : List String) (smf : SalesmapFieldsMap)
    (recommendedFields : List RecommendedField) : List ExtendedCRMField :=
  recommendedFields.foldl (addRecommended smf) (registryFields objectTypes smf)

/-- `allFieldsWithCustom` of `loadFields` (line 141): candidate fields are the
registry/recommended fields followed by the user's custom fields. -/
def allFieldsWithCustom (objectTypes : List String) (smf : SalesmapFieldsMap)
    (recommendedFields : List RecommendedField)
    (customFields : List ExtendedCRMField) : List ExtendedCRMField :=
  fieldsByObject objectTypes smf recommendedFields ++ customFields

/-- The characters stripped by the JS regex `/[_\s-]/g` (underscore, the
common whitespace characters, hyphen). -/
def isStrippedChar (c : Char) : Bool :=
  c == '_' || c == '-' || c == ' ' || c == '\t' || c == '\n' || c == '\r' ||
    c == '\x0b' || c == '\x0c'

/-- JS `s.toLowerCase().replace(/[_\s-]/g, '')` (FieldMapper.tsx lines
149-152). -/
def normalizeName (s : String) : String :=
  ⟨(s.data.map Char.toLower).filter fun c => !isStrippedChar c⟩

/-- The auto-match predicate of `loadFields` (lines 150-154): the normalized
column equals the normalized field label or the normalized field id. -/
def fieldMatches (col : String) (f : ExtendedCRMField) : Bool :=
  normalizeName col == normalizeName f.label ||
    normalizeName col == normalizeName f.id

/-- The auto-match loop (lines 147-161): for each source column, bind it to
the first candidate field matching under normalization, if any. -/
def autoMatch (sourceColumns : List String) (fields : List ExtendedCRMField) :
    List FieldMapping :=
  sourceColumns.filterMap fun col =>
    (fields.find? (fieldMatches col)).map fun f =>
      { source_column := col, target_field := f.objectType ++ "." ++ f.id }

/-- The mapping-state effect of `loadFields` (lines 145-165): auto-match runs
only when the prior mapping list is empty and there is at least one candidate
field, and it replaces the mapping state only when it produced something. -/
def loadFieldsMappings (mappings : List FieldMapping)
    (sourceColumns : List String) (fields : List ExtendedCRMField) :
    List FieldMapping :=
  if mappings.isEmpty && !fields.isEmpty then
    if !(autoMatch sourceColumns fields).isEmpty then autoMatch sourceColumns fields
    else mappings
  else mappings

/-- `handleMappingChange` (FieldMapper.tsx lines 173-179): drop any mapping
for the source column, then (when the target is non-empty — JS truthiness of
the select value) append the new mapping. -/
def handleMappingChange (mappings : List FieldMapping)
    (sourceColumn targetField : String) : List FieldMapping :=
  let newMappings := mappings.filter fun m => m.source_column != sourceColumn
  if targetField != "" then
    newMappings ++ [{ source_column := sourceColumn, target_field := targetField }]
  else newMappings

/-- `isFieldUsed` (lines 185-187): the UI disables a target option for a
column when some other column already maps to it. -/
def isFieldUsed (mappings : List FieldMapping) (fieldKey currentColumn : String) :
    Bool :=
  mappings.any fun m =>
    m.target_field == fieldKey && m.source_column != currentColumn

/-- Models JS `String.prototype.endsWith`: suffix test on the code points. -/
def jsEndsWith (s post : String) : Bool :=
  post.data.isSuffixOf s.data

/-- The mapping cascade of `handleRemoveCustomField` (lines 208-212): keep
the mappings whose target does not end in `"." ++ fieldId`. -/
def removeCustomFieldMappings (mappings : List FieldMapping) (fieldId : String) :
    List FieldMapping :=
  mappings.filter fun m => !jsEndsWith m.target_field ("." ++ fieldId)

/-- The custom-field effect of `handleRemoveCustomField` (line 209). -/
def removeCustomFieldFields (customFields : List ExtendedCRMField)
    (fieldId : String) : List ExtendedCRMField :=
  customFields.filter fun f => f.id != fieldId

/-- JS `String.prototype.split('.')` on the underlying character list:
`"a.b.c"` splits to `["a","b","c"]`, the empty string to `[""]`. -/
def splitCharsOnDot : List Char → List (List Char)
  | [] => [[]]
  | c :: cs =>
      match splitCharsOnDot cs, c == '.' with
      | rest, true => [] :: rest
      | r :: rs, false => (c :: r) :: rs
      | [], false => [[c]]

/-- JS `targetField.split('.')` destructured as `[objType, fieldId]`: the
first two components, when both exist (with a single component `fieldId` is
`undefined`, and every subsequent `===` comparison against it is false). -/
def splitTarget (t : String) : Option (String × String) :=
  match splitCharsOnDot t.data with
  | objType :: fieldId :: _ => some (⟨objType⟩, ⟨fieldId⟩)
  | _ => none

/-- The verification step of `handleAiAutoMap` (lines 263-267): the suggested
target must split into an `(objType, fieldId)` present in the candidate set. -/
def aiFieldExists (fields : List ExtendedCRMField) (t : String) : Bool :=
  match splitTarget t with
  | some (objType, fieldId) =>
      fields.any fun f => f.objectType == objType && f.id == fieldId
  | none => false

/-- The accumulation loop of `handleAiAutoMap` (lines 260-275) over
`Object.entries(result.mappings)` (a `Record<string, string | null>`,
modelled as an association list in insertion order): keep the entries with a
truthy target that passes `aiFieldExists`. -/
def applyAiMappings (fields : List ExtendedCRMField)
    (aiMappings : List (String × Option String)) : List FieldMapping :=
  aiMappings.filterMap fun p =>
    match p.2 with
    | some t =>
        if t != "" && aiFieldExists fields t then
          some { source_column := p.1, target_field := t }
        else none
    | none => none

/-- The mapping-state effect of `handleAiAutoMap` (lines 277-282): when at
least one suggestion applies, the whole mapping state is replaced by the
applied suggestions; otherwise it is left unchanged (and an error message is
set instead). -/
def handleAiAutoMap (mappings : List FieldMapping)
    (fields : List ExtendedCRMField)
    (aiMappings : List (String × Option String)) : List FieldMapping :=
  if !(applyAiMappings fields aiMappings).isEmpty then
    applyAiMappings fields aiMappings
  else mappings

/-- The needs-creation warning block of `FieldMapper` (lines 749-757):
project each mapping onto the candidate field it targets, keeping only
fields flagged `needsCreation` (the `find`/`filter(Boolean)` pair). -/
def fieldsNeedingCreation (mappings : List FieldMapping)
    (fields : List ExtendedCRMField) : List ExtendedCRMField :=
  mappings.filterMap fun m =>
    match splitTarget m.target_field with
    | some (objType, fieldId) =>
        fields.find? fun f =>
          f.objectType == objType && f.id == fieldId && f.needsCreation
    | none => none

/-- The warning is rendered iff `fieldsNeedingCreation` is non-empty
(line 757). -/
def needsCreationWarningShown (mappings : List FieldMapping)
    (fields : List ExtendedCRMField) : Bool :=
  !(fieldsNeedingCreation mappings fields).isEmpty

/-- `needsConnectionObject` from `ObjectSelector.tsx` (lines 82-84): deal or
lead selected while neither company nor people is. -/
def needsConnectionObject (selectedTypes : List String) : Bool :=
  (selectedTypes.contains "deal" || selectedTypes.contains "lead") &&
    !(selectedTypes.contains "company" || selectedTypes.contains "people")

/-- The subject of the connection warning text (ObjectSelector.tsx lines
230-235); rendered only when `needsConnectionObject` holds. -/
def connectionWarningSubject (selectedTypes : List String) : String :=
  if selectedTypes.contains "deal" && selectedTypes.contains "lead" then
    "딜과 리드는"
  else if selectedTypes.contains "deal" then "딜은"
  else "리드는"

/-- The pieces of `Onboarding` component state read by the step guard
`canProgress` (Onboarding.tsx lines 90-108).  `uploadedFileSome` stands for
`uploadedFile !== null` and `validationResultSome` for
`validationResult !== null`. -/
structure OnboardingGuardState where
  currentStep : Nat
  isApiKeyValidated : Bool
  selectedObjectTypes : List String
  uploadedFileSome : Bool
  fieldMappings : List FieldMapping
  validationResultSome : Bool
  deriving Repr

/-- `canProgress` (Onboarding.tsx lines 90-108). -/
def canProgress (st : OnboardingGuardState) : Bool :=
  match st.currentStep with
  | 0 => st.isApiKeyValidated
  | 1 => decide (0 < st.selectedObjectTypes.length)
  | 2 => st.uploadedFileSome
  | 3 => decide (0 < st.fieldMappings.length)
  | 4 => true
  | _ => false

/-- The guard of `handleImportAll` (Onboarding.tsx line 172): the import
proceeds unless no file is uploaded or no object type is selected. -/
def importAllProceeds (uploadedFileSome : Bool)
    (selectedObjectTypes : List String) : Bool :=
  uploadedFileSome && !selectedObjectTypes.isEmpty

/-- The guard of `handleImportValid` (Onboarding.tsx line 197): additionally
requires a validation result to be present. -/
def importValidProceeds (uploadedFileSome : Bool)
    (selectedObjectTypes : List String) (validationResultSome : Bool) : Bool :=
  uploadedFileSome && !selectedObjectTypes.isEmpty && validationResultSome

/-- The subset of `ValidationResult` (`types/index.ts`) read by the action
buttons of `ValidationResultPanel.tsx`. -/
structure ValidationResultCounts where
  success : Bool
  total_rows : Nat
  valid_rows : Nat
  deriving Repr

/-- `ValidationResultPanel.tsx` lines 239-242: the import-valid button is
rendered iff `0 < valid_rows < total_rows`, and disabled only by
`isLoading`. -/
def showImportValidButton (r : ValidationResultCounts) : Bool :=
  decide (0 < r.valid_rows) && decide (r.valid_rows < r.total_rows)

/-- `ValidationResultPanel.tsx` lines 258-261: the import-all button is
rendered iff the validation result reports `success`, and disabled only by
`isLoading`. -/
def showImportAllButton (r : ValidationResultCounts) : Bool :=
  r.success

/-- `ImportResponse` from `types/index.ts`. -/
structure ImportResponse where
  success : Bool
  imported_count : Nat
  errors : List String
  deriving DecidableEq, Repr

/-- JS `data.filter((_, idx) => validRowIndices.includes(idx))` from
`importData` (services/api.ts lines 103-105), with the running 0-based
index made explicit. -/
def filterByValidIdx (valid : List Nat) : Nat → List α → List α
  | _, [] => []
  | i, r :: rs =>
      if valid.contains i then r :: filterByValidIdx valid (i + 1) rs
      else filterByValidIdx valid (i + 1) rs

/-- The rows `importData` exports: the full data when no index list is
given, the index-filtered data otherwise. -/
def importFiltered (rows : List α) (validRowIndices : Option (List Nat)) :
    List α :=
  match validRowIndices with
  | some valid => filterByValidIdx valid 0 rows
  | none => rows

/-- The success value `importData` returns (services/api.ts lines 156-160):
`imported_count` is the length of the filtered data and `errors` is empty. -/
def importDataSuccess (rows : List α) (validRowIndices : Option (List Nat)) :
    ImportResponse :=
  { success := true,
    imported_count := (importFiltered rows validRowIndices).length,
    errors := [] }

/-- Modelled from the spec (for the refinement claim about `importValid`):
"exports exactly the rows whose 0-based index is a member of
`validRowIndices` (in their original order)" — the rows paired with their
indices, filtered by index membership, projected back to rows. -/
def specSelectedRows (rows : List α) (valid : List Nat) : List α :=
  ((rows.enum).filter fun p => decide (p.1 ∈ valid)).map Prod.snd

/-- Example candidate field used by the concrete witnesses below. -/
def exField (obj id label : String) (needs : Bool) : ExtendedCRMField :=
  { id := id, label := label, ftype := "text", required := false,
    objectType := obj, objectName := objectNameOf obj,
    isCustom := false, needsCreation := needs }

/-- De-duplication key of a candidate field: `(objectType, fieldId)`. -/
def fieldKey (f : ExtendedCRMField) : String × String :=
  (f.objectType, f.id)

/-- Appending an element not yet present preserves `Nodup`. -/
theorem nodup_append_single {α : Type} {l : List α} {a : α}
    (h : l.Nodup) (ha : a ∉ l) : (l ++ [a]).Nodup := by
  simp [List.nodup_append, h, ha]

/-- Mapping a `filterMap` back onto a projection of the input is a sublist
of that projection when each produced element remembers its origin. -/
theorem map_filterMap_sublist {α β γ : Type} (f : α → Option β) (g : β → γ)
    (g' : α → γ) (h : ∀ a b, f a = some b → g b = g' a) :
    ∀ l : List α, ((l.filterMap f).map g).Sublist (l.map g') := by
  intro l
  induction l with
  | nil => simp
  | cons a as ih =>
      cases hfa : f a with
      | none => simpa [List.filterMap_cons, hfa] using ih.cons (g' a)
      | some b =>
          have hb : g b = g' a := h a b hfa
          simpa [List.filterMap_cons, hfa, hb] using ih.cons₂ (g' a)

/-- `find?` returns the unique element of a singleton `filter` result. -/
theorem find?_of_filter_singleton {α : Type} {p : α → Bool} :
    ∀ {l : List α} {a : α}, l.filter p = [a] → l.find? p = some a := by
  intro l
  induction l with
  | nil => intro a h; simp at h
  | cons x xs ih =>
      intro a h
      cases hx : p x with
      | true =>
          rw [List.filter_cons_of_pos hx] at h
          obtain ⟨rfl, -⟩ : x = a ∧ xs.filter p = [] := by
            constructor <;> [exact (List.cons_eq_cons.mp h).1;
              exact (List.cons_eq_cons.mp h).2]
          simp [List.find?_cons, hx]
      | false =>
          rw [List.filter_cons_of_neg (by simp [hx])] at h
          simpa [List.find?_cons, hx] using ih h

/-- The source columns of an `autoMatch` result form a sublist of the input
columns. -/
theorem autoMatch_sources_sublist (cols : List String)
    (fields : List ExtendedCRMField) :
    ((autoMatch cols fields).map (fun m => m.source_column)).Sublist cols := by
  have h := map_filterMap_sublist
    (fun col => (fields.find? (fieldMatches col)).map fun f =>
      ({ source_column := col, target_field := f.objectType ++ "." ++ f.id } :
        FieldMapping))
    (fun m => m.source_column) id ?_ cols
  · simpa [autoMatch] using h
  · intro c m hm
    cases hfind : fields.find? (fieldMatches c) <;> simp [hfind] at hm
    simp [← hm]

/-- The source columns of an `applyAiMappings` result form a sublist of the
AI response keys. -/
theorem applyAi_sources_sublist (fields : List ExtendedCRMField)
    (ai : List (String × Option String)) :
    ((applyAiMappings fields ai).map (fun m => m.source_column)).Sublist
      (ai.map Prod.fst) := by
  refine map_filterMap_sublist _ _ _ ?_ ai
  intro p m hm
  cases hp : p.2 with
  | none => simp [hp] at hm
  | some t =>
      rw [hp] at hm
      by_cases hc : (t != "" && aiFieldExists fields t) = true
      · simp [hc] at hm; simp [← hm]
      · simp [hc] at hm

/-- Source-column uniqueness is preserved by `handleMappingChange`. -/
theorem handleMappingChange_sources_nodup {mappings : List FieldMapping}
    {col t : String}
    (h : (mappings.map fun m => m.source_column).Nodup) :
    ((handleMappingChange mappings col t).map
      fun m => m.source_column).Nodup := by
  have hsub : ((mappings.filter fun m => m.source_column != col).map
      fun m => m.source_column).Sublist (mappings.map fun m => m.source_column) :=
    (List.filter_sublist _).map _
  have hfil := h.sublist hsub
  have hnot : col ∉ (mappings.filter fun m => m.source_column != col).map
      fun m => m.source_column := by
    intro hmem
    rcases List.mem_map.mp hmem with ⟨m, hm, hsrc⟩
    rcases List.mem_filter.mp hm with ⟨-, hne⟩
    simp [hsrc] at hne
  unfold handleMappingChange
  split
  · simpa using nodup_append_single hfil hnot
  · exact hfil

/-- Source-column uniqueness is preserved by the `loadFields` auto-match
step, given duplicate-free source columns. -/
theorem loadFieldsMappings_sources_nodup {mappings : List FieldMapping}
    {cols : List String} {fields : List ExtendedCRMField}
    (hm : (mappings.map fun m => m.source_column).Nodup)
    (hc : cols.Nodup) :
    ((loadFieldsMappings mappings cols fields).map
      fun m => m.source_column).Nodup := by
  unfold loadFieldsMappings
  split
  · split
    · exact hc.sublist (autoMatch_sources_sublist cols fields)
    · exact hm
  · exact hm

/-- Source-column uniqueness is preserved by `handleAiAutoMap`, given
duplicate-free AI response keys. -/
theorem handleAiAutoMap_sources_nodup {mappings : List FieldMapping}
    {fields : List ExtendedCRMField} {ai : List (String × Option String)}
    (hm : (mappings.map fun m => m.source_column).Nodup)
    (hai : (ai.map Prod.fst).Nodup) :
    ((handleAiAutoMap mappings fields ai).map
      fun m => m.source_column).Nodup := by
  unfold handleAiAutoMap
  split
  · exact hai.sublist (applyAi_sources_sublist fields ai)
  · exact hm

/-- Source-column uniqueness is preserved by the custom-field removal
cascade. -/
theorem removeCustomFieldMappings_sources_nodup {mappings : List FieldMapping}
    {fieldId : String}
    (hm : (mappings.map fun m => m.source_column).Nodup) :
    ((removeCustomFieldMappings mappings fieldId).map
      fun m => m.source_column).Nodup :=
  hm.sublist ((List.filter_sublist _).map _)

/-- C1 counterexample: with `colA` already mapped to `company.fieldX`, the
manual mapping call `handleMappingChange("colB", "company.fieldX")` is not
rejected as a no-op: the mapping set changes and now contains two mappings
to the same target field. -/
theorem setMapping_conflict_not_rejected_cex :
    handleMappingChange [⟨"colA", "company.fieldX"⟩] "colB" "company.fieldX"
        = [⟨"colA", "company.fieldX"⟩, ⟨"colB", "company.fieldX"⟩] ∧
      handleMappingChange [⟨"colA", "company.fieldX"⟩] "colB" "company.fieldX"
        ≠ [⟨"colA", "company.fieldX"⟩] := by decide

/-- C1 (amended): when the target field is already bound to a different
source column, `handleMappingChange` does not reject the call: it keeps the
old mapping and appends the new one, producing a target collision; the
conflict is only prevented at the UI layer, where `isFieldUsed` reports the
target as taken so the option is rendered disabled. -/
theorem setMapping_conflict_overwrites (mappings : List FieldMapping)
    (colA colB t : String) (hmem : (⟨colA, t⟩ : FieldMapping) ∈ mappings)
    (hne : colA ≠ colB) (ht : t ≠ "") :
    (⟨colA, t⟩ : FieldMapping) ∈ handleMappingChange mappings colB t ∧
      (⟨colB, t⟩ : FieldMapping) ∈ handleMappingChange mappings colB t ∧
      isFieldUsed mappings t colB = true := by
  have hfil : (⟨colA, t⟩ : FieldMapping) ∈
      mappings.filter fun m => m.source_column != colB :=
    List.mem_filter.mpr ⟨hmem, by simpa using hne⟩
  refine ⟨?_, ?_, ?_⟩
  · unfold handleMappingChange
    split
    · exact List.mem_append_left _ hfil
    · exact hfil
  · unfold handleMappingChange
    split
    · exact List.mem_append_right _ (by simp)
    · rename_i hcond
      exact absurd (by simpa using hcond) ht
  · exact List.any_eq_true.mpr ⟨⟨colA, t⟩, hmem, by simp [hne]⟩

/-- C1 witness: the amended theorem applied to the one-mapping state
`[colA ↦ company.fieldX]` and the conflicting call for `colB`. -/
theorem setMapping_conflict_overwrites_w :
    (⟨"colA", "company.fieldX"⟩ : FieldMapping) ∈
        handleMappingChange [⟨"colA", "company.fieldX"⟩] "colB" "company.fieldX" ∧
      (⟨"colB", "company.fieldX"⟩ : FieldMapping) ∈
        handleMappingChange [⟨"colA", "company.fieldX"⟩] "colB" "company.fieldX" ∧
      isFieldUsed [⟨"colA", "company.fieldX"⟩] "company.fieldX" "colB" = true :=
  setMapping_conflict_overwrites _ "colA" "colB" "company.fieldX"
    (by decide) (by decide) (by decide)

/-- C2 counterexample: cold-start auto-match over the columns `"a b"` and
`"ab"` (both normalizing to `"ab"`) against a single field labelled `"ab"`
produces two distinct mappings with the same target field — the resolved set
is not a partial bijection. -/
theorem bijection_invariant_cex :
    loadFieldsMappings [] ["a b", "ab"] [exField "company" "f1" "ab" false]
        = [⟨"a b", "company.f1"⟩, ⟨"ab", "company.f1"⟩] ∧
      (⟨"a b", "company.f1"⟩ : FieldMapping) ≠ ⟨"ab", "company.f1"⟩ ∧
      (⟨"a b", "company.f1"⟩ : FieldMapping).target_field =
        (⟨"ab", "company.f1"⟩ : FieldMapping).target_field := by decide

/-- C2 (amended): every mapping-producing operation (cold-start auto-match,
manual edit, AI auto-map application, custom-field removal) keeps the source
columns of the result pairwise distinct — given pairwise-distinct prior
sources, duplicate-free file columns and duplicate-free AI response keys —
but target-field uniqueness is not guaranteed. -/
theorem mapping_ops_source_pairwise (mappings : List FieldMapping)
    (cols : List String) (fields : List ExtendedCRMField)
    (col t fid : String) (ai : List (String × Option String))
    (hm : mappings.Pairwise fun m1 m2 => m1.source_column ≠ m2.source_column)
    (hc : cols.Nodup) (hai : (ai.map Prod.fst).Nodup) :
    ((loadFieldsMappings mappings cols fields).Pairwise fun m1 m2 =>
        m1.source_column ≠ m2.source_column) ∧
      ((handleMappingChange mappings col t).Pairwise fun m1 m2 =>
        m1.source_column ≠ m2.source_column) ∧
      ((handleAiAutoMap mappings fields ai).Pairwise fun m1 m2 =>
        m1.source_column ≠ m2.source_column) ∧
      ((removeCustomFieldMappings mappings fid).Pairwise fun m1 m2 =>
        m1.source_column ≠ m2.source_column) := by
  have hm' : (mappings.map fun m => m.source_column).Nodup :=
    List.pairwise_map.mpr hm
  exact ⟨List.pairwise_map.mp (loadFieldsMappings_sources_nodup hm' hc),
    List.pairwise_map.mp (handleMappingChange_sources_nodup hm'),
    List.pairwise_map.mp (handleAiAutoMap_sources_nodup hm' hai),
    List.pairwise_map.mp (removeCustomFieldMappings_sources_nodup hm')⟩

/-- C2 witness: the amended theorem applied to a concrete state — one prior
mapping, two file columns, one candidate field, one AI suggestion. -/
theorem mapping_ops_source_pairwise_w :
    (((loadFieldsMappings [⟨"c0", "company.f0"⟩] ["c1", "c2"]
        [exField "company" "f1" "ab" false]).Pairwise fun m1 m2 =>
        m1.source_column ≠ m2.source_column) ∧
      ((handleMappingChange [⟨"c0", "company.f0"⟩] "c1"
        "company.f1").Pairwise fun m1 m2 =>
        m1.source_column ≠ m2.source_column) ∧
      ((handleAiAutoMap [⟨"c0", "company.f0"⟩]
        [exField "company" "f1" "ab" false]
        [("c1", some "company.f1")]).Pairwise fun m1 m2 =>
        m1.source_column ≠ m2.source_column) ∧
      ((removeCustomFieldMappings [⟨"c0", "company.f0"⟩]
        "f9").Pairwise fun m1 m2 =>
        m1.source_column ≠ m2.source_column)) :=
  mapping_ops_source_pairwise [⟨"c0", "company.f0"⟩] ["c1", "c2"]
    [exField "company" "f1" "ab" false] "c1" "company.f1" "f9"
    [("c1", some "company.f1")] (by decide) (by decide) (by decide)

/-- C3 counterexample: with the prior manual mapping `colA ↦ company.f1`
whose target is still a valid candidate (third conjunct), applying an AI
result that only suggests `colB ↦ company.f2` replaces the whole mapping
set: the manual mapping is silently dropped. -/
theorem ai_automap_drops_manual_cex :
    handleAiAutoMap [⟨"colA", "company.f1"⟩]
        [exField "company" "f1" "f one" false, exField "company" "f2" "f two" false]
        [("colB", some "company.f2")] = [⟨"colB", "company.f2"⟩] ∧
      (⟨"colA", "company.f1"⟩ : FieldMapping) ∉
        handleAiAutoMap [⟨"colA", "company.f1"⟩]
          [exField "company" "f1" "f one" false, exField "company" "f2" "f two" false]
          [("colB", some "company.f2")] ∧
      aiFieldExists [exField "company" "f1" "f one" false,
        exField "company" "f2" "f two" false] "company.f1" = true := by decide

/-- C3 (amended): applying AI suggestions replaces the entire mapping set by
the verified suggestions whenever at least one applies, dropping every prior
mapping whose source column is not an AI response key; prior mappings
survive only when no suggestion applies (then the set is unchanged and an
error message is shown instead). -/
theorem ai_automap_replaces_mappings (mappings : List FieldMapping)
    (fields : List ExtendedCRMField) (ai : List (String × Option String))
    (m : FieldMapping) (_hm : m ∈ mappings) :
    (applyAiMappings fields ai = [] →
        handleAiAutoMap mappings fields ai = mappings) ∧
      (applyAiMappings fields ai ≠ [] → m.source_column ∉ ai.map Prod.fst →
        m ∉ handleAiAutoMap mappings fields ai) := by
  constructor
  · intro h
    unfold handleAiAutoMap
    simp [h]
  · intro hne hsrc hmem
    unfold handleAiAutoMap at hmem
    rw [if_pos (by simpa using hne)] at hmem
    exact hsrc ((applyAi_sources_sublist fields ai).subset
      (List.mem_map_of_mem _ hmem))

/-- C3 witness: the amended theorem applied to the counterexample state,
showing the manual mapping `colA ↦ company.f1` absent from the result. -/
theorem ai_automap_replaces_mappings_w :
    (⟨"colA", "company.f1"⟩ : FieldMapping) ∉
      handleAiAutoMap [⟨"colA", "company.f1"⟩]
        [exField "company" "f1" "f one" false, exField "company" "f2" "f two" false]
        [("colB", some "company.f2")] :=
  (ai_automap_replaces_mappings [⟨"colA", "company.f1"⟩]
    [exField "company" "f1" "f one" false, exField "company" "f2" "f two" false]
    [("colB", some "company.f2")] ⟨"colA", "company.f1"⟩ (by decide)).2
    (by decide) (by decide)

/-- C10: every mapping-producing operation yields a list with no duplicate
source column (source-side injectivity), independently of target-side
uniqueness — given duplicate-free prior sources, file columns and AI keys. -/
theorem mapping_ops_source_nodup (mappings : List FieldMapping)
    (cols : List String) (fields : List ExtendedCRMField)
    (col t fid : String) (ai : List (String × Option String))
    (hm : (mappings.map fun m => m.source_column).Nodup)
    (hc : cols.Nodup) (hai : (ai.map Prod.fst).Nodup) :
    ((loadFieldsMappings mappings cols fields).map
        fun m => m.source_column).Nodup ∧
      ((handleMappingChange mappings col t).map
        fun m => m.source_column).Nodup ∧
      ((handleAiAutoMap mappings fields ai).map
        fun m => m.source_column).Nodup ∧
      ((removeCustomFieldMappings mappings fid).map
        fun m => m.source_column).Nodup :=
  ⟨loadFieldsMappings_sources_nodup hm hc,
    handleMappingChange_sources_nodup hm,
    handleAiAutoMap_sources_nodup hm hai,
    removeCustomFieldMappings_sources_nodup hm⟩

/-- C10 witness: the claim theorem applied to a concrete state — one prior
mapping, two file columns, one candidate field, one AI suggestion. -/
theorem mapping_ops_source_nodup_w :
    (((loadFieldsMappings [⟨"c0", "company.f0"⟩] ["c1", "c2"]
        [exField "company" "f1" "ab" false]).map
        fun m => m.source_column).Nodup ∧
      ((handleMappingChange [⟨"c0", "company.f0"⟩] "c1" "company.f1").map
        fun m => m.source_column).Nodup ∧
      ((handleAiAutoMap [⟨"c0", "company.f0"⟩]
        [exField "company" "f1" "ab" false]
        [("c1", some "company.f1")]).map
        fun m => m.source_column).Nodup ∧
      ((removeCustomFieldMappings [⟨"c0", "company.f0"⟩] "f9").map
        fun m => m.source_column).Nodup) :=
  mapping_ops_source_nodup [⟨"c0", "company.f0"⟩] ["c1", "c2"]
    [exField "company" "f1" "ab" false] "c1" "company.f1" "f9"
    [("c1", some "company.f1")] (by decide) (by decide) (by decide)

/-- C4 counterexample: a state whose only mapping targets a
`needsCreation` field.  The warning block renders, yet the guard of
`handleImportAll` passes, the guard of `handleImportValid` passes, and both
buttons for import of the validation panel are rendered (enabled when not
loading) — the final import action is not prevented. -/
theorem needs_creation_import_not_blocked_cex :
    needsCreationWarningShown [⟨"colA", "company.newf"⟩]
        [exField "company" "newf" "New Field" true] = true ∧
      importAllProceeds true ["company"] = true ∧
      importValidProceeds true ["company"] true = true ∧
      showImportAllButton ⟨true, 3, 3⟩ = true ∧
      showImportValidButton ⟨true, 3, 2⟩ = true := by decide

/-- C4 (amended): a mapping targeting a `needsCreation` field only produces
a rendered warning; no import path consults `needsCreation` — the
guards for import-all/import-valid check only that a file is uploaded and the
object-type selection is non-empty, and the panel buttons depend only on
the validation counts. -/
theorem needs_creation_warning_only (mappings : List FieldMapping)
    (fields : List ExtendedCRMField) (types : List String)
    (r : ValidationResultCounts)
    (hw : fieldsNeedingCreation mappings fields ≠ [])
    (hne : types ≠ []) (hs : r.success = true) :
    needsCreationWarningShown mappings fields = true ∧
      importAllProceeds true types = true ∧
      importValidProceeds true types true = true ∧
      showImportAllButton r = true := by
  refine ⟨?_, ?_, ?_, hs⟩
  · simp [needsCreationWarningShown, hw]
  · simp [importAllProceeds, hne]
  · simp [importValidProceeds, hne]

/-- C4 witness: the amended theorem at the counterexample state. -/
theorem needs_creation_warning_only_w :
    needsCreationWarningShown [⟨"colA", "company.newf"⟩]
        [exField "company" "newf" "New Field" true] = true ∧
      importAllProceeds true ["company"] = true ∧
      importValidProceeds true ["company"] true = true ∧
      showImportAllButton ⟨true, 3, 3⟩ = true :=
  needs_creation_warning_only [⟨"colA", "company.newf"⟩]
    [exField "company" "newf" "New Field" true] ["company"] ⟨true, 3, 3⟩
    (by decide) (by decide) (by decide)

/-- C5 counterexample: two candidate fields both normalize to the column
name `"name"`, yet cold-start auto-match still binds the column — to the
first matching field — contradicting the rule that a binding happens only
when exactly one candidate matches. -/
theorem auto_match_multiple_candidates_cex :
    (([exField "company" "f1" "Name" false,
          exField "people" "f2" "NAME" false]).filter
        (fieldMatches "name")).length = 2 ∧
      loadFieldsMappings [] ["name"]
          [exField "company" "f1" "Name" false,
            exField "people" "f2" "NAME" false]
        = [⟨"name", "company.f1"⟩] := by decide

/-- C5 (amended): auto-match runs only when the prior mapping set is empty
(a non-empty set is returned unchanged); it normalizes names by lowercasing
and stripping underscore/whitespace/hyphen, and binds each column to the
FIRST candidate field whose normalized label or id equals the normalized
column — in particular to the unique candidate when exactly one matches,
but uniqueness is not required. -/
theorem auto_match_cold_start_first_match (mappings : List FieldMapping)
    (cols : List String) (fields : List ExtendedCRMField) (col : String)
    (f : ExtendedCRMField) (hcol : col ∈ cols)
    (hone : fields.filter (fieldMatches col) = [f]) :
    (mappings ≠ [] → loadFieldsMappings mappings cols fields = mappings) ∧
      (⟨col, f.objectType ++ "." ++ f.id⟩ : FieldMapping) ∈
        autoMatch cols fields := by
  constructor
  · intro hne
    unfold loadFieldsMappings
    rw [if_neg (by simp [List.isEmpty_iff, hne])]
  · have hfind : fields.find? (fieldMatches col) = some f :=
      find?_of_filter_singleton hone
    unfold autoMatch
    exact List.mem_filterMap.mpr ⟨col, hcol, by simp [hfind]⟩

/-- C5 witness: the amended theorem where exactly one candidate matches the
column `"name"`. -/
theorem auto_match_cold_start_first_match_w :
    (([⟨"c0", "company.f0"⟩] : List FieldMapping) ≠ [] →
        loadFieldsMappings [⟨"c0", "company.f0"⟩] ["name"]
          [exField "company" "f1" "Name" false] = [⟨"c0", "company.f0"⟩]) ∧
      (⟨"name", (exField "company" "f1" "Name" false).objectType ++ "." ++
          (exField "company" "f1" "Name" false).id⟩ : FieldMapping) ∈
        autoMatch ["name"] [exField "company" "f1" "Name" false] :=
  auto_match_cold_start_first_match [⟨"c0", "company.f0"⟩] ["name"]
    [exField "company" "f1" "Name" false] "name"
    (exField "company" "f1" "Name" false) (by decide) (by decide)

/-- C6 counterexample: selecting `{deal}` alone does emit the relationship
issue, but the issue is not blocking — the object-selection step guard
passes and the final import guard passes for that very selection. -/
theorem relationship_issue_not_blocking_cex :
    needsConnectionObject ["deal"] = true ∧
      canProgress ⟨1, true, ["deal"], false, [], false⟩ = true ∧
      importAllProceeds true ["deal"] = true := by decide

/-- C6 (amended): when deal or lead is selected without company or people, a
relationship warning is emitted (the resolved mapping is never consulted for
a linking field), and `{deal, company}` yields none; the warning is
advisory: step progression requires only a non-empty selection. -/
theorem relationship_warning_advisory (selected : List String)
    (hdl : "deal" ∈ selected ∨ "lead" ∈ selected)
    (hco : "company" ∉ selected) (hpe : "people" ∉ selected) :
    needsConnectionObject selected = true ∧
      needsConnectionObject ["deal", "company"] = false ∧
      canProgress ⟨1, true, selected, false, [], false⟩ = true := by
  have hne : selected ≠ [] := by
    rcases hdl with h | h <;> exact List.ne_nil_of_mem h
  refine ⟨?_, by decide, ?_⟩
  · rcases hdl with h | h <;> simp [needsConnectionObject, h, hco, hpe]
  · simp [canProgress, List.length_pos.mpr hne]

/-- C6 witness: the amended theorem at the selection `{lead}`. -/
theorem relationship_warning_advisory_w :
    needsConnectionObject ["lead"] = true ∧
      needsConnectionObject ["deal", "company"] = false ∧
      canProgress ⟨1, true, ["lead"], false, [], false⟩ = true :=
  relationship_warning_advisory ["lead"] (Or.inr (by decide))
    (by decide) (by decide)

/-- One reconciliation step preserves uniqueness of the `(objectType, id)`
keys: a field is only appended after the `alreadyAdded` check fails. -/
theorem addRecommended_keys_nodup (smf : SalesmapFieldsMap)
    (rf : RecommendedField) {acc : List ExtendedCRMField}
    (h : (acc.map fieldKey).Nodup) :
    ((addRecommended smf acc rf).map fieldKey).Nodup := by
  unfold addRecommended
  split
  · exact h
  · split
    · exact h
    · rename_i hnotadded
      rw [List.map_append, List.map_cons, List.map_nil]
      refine nodup_append_single h ?_
      intro hmem
      rcases List.mem_map.mp hmem with ⟨f, hf, hkey⟩
      refine hnotadded (List.any_eq_true.mpr ⟨f, hf, ?_⟩)
      have h1 : f.objectType = rf.objectType := congrArg Prod.fst hkey
      have h2 : f.id = rf.fieldId := congrArg Prod.snd hkey
      simp [h1, h2]

/-- The reconciliation fold preserves key-uniqueness. -/
theorem addRecommended_foldl_keys_nodup (smf : SalesmapFieldsMap) :
    ∀ (recs : List RecommendedField) (acc : List ExtendedCRMField),
      (acc.map fieldKey).Nodup →
      ((recs.foldl (addRecommended smf) acc).map fieldKey).Nodup := by
  intro recs
  induction recs with
  | nil => intro acc h; exact h
  | cons rf rest ih =>
      intro acc h
      exact ih _ (addRecommended_keys_nodup smf rf h)

/-- Every field produced by the reconciliation fold is either an input
field or a synthesized needs-creation text field. -/
theorem mem_addRecommended_foldl (smf : SalesmapFieldsMap) :
    ∀ (recs : List RecommendedField) (acc : List ExtendedCRMField)
      (f : ExtendedCRMField), f ∈ recs.foldl (addRecommended smf) acc →
      f ∈ acc ∨ (f.needsCreation = true ∧ f.ftype = "text" ∧
        f.required = false ∧ f.isCustom = false) := by
  intro recs
  induction recs with
  | nil => intro acc f h; exact Or.inl h
  | cons rf rest ih =>
      intro acc f h
      rcases ih (addRecommended smf acc rf) f h with hmem | hsynth
      · unfold addRecommended at hmem
        split at hmem
        · exact Or.inl hmem
        · split at hmem
          · exact Or.inl hmem
          · rcases List.mem_append.mp hmem with h1 | h2
            · exact Or.inl h1
            · have hf : f = ⟨rf.fieldId, rf.fieldLabel, "text", false,
                rf.objectType, objectNameOf rf.objectType, false, true⟩ := by
                simpa using h2
              subst hf
              exact Or.inr ⟨rfl, rfl, rfl, rfl⟩
      · exact Or.inr hsynth

/-- C7 counterexample: the recommended field `(company, revenue, "Revenue")`
has a case-insensitive label match (`"revenue"`, under the different id
`rev1`) in the fetched schema, yet reconciliation — which looks up by id
only — still synthesizes a `needsCreation` candidate for it. -/
theorem reconcile_label_lookup_cex :
    ((fieldsByObject ["company"]
        [("company", [⟨"rev1", "revenue", "number", false, false, false⟩])]
        [⟨"company", "revenue", "Revenue"⟩]).filter
      (fun f => f.id == "revenue" && f.needsCreation)).length = 1 ∧
      ("Revenue".data.map Char.toLower == "revenue".data.map Char.toLower)
        = true := by decide

/-- C7 (amended): reconciliation of AI-recommended fields looks each field
up by id only (against all fetched fields of the object type, system fields
included — never by label); a field found absent is synthesized with
`needsCreation = true` and field type always `"text"` (the recommendation
type carries no field type); and no `(objectType, fieldId)` key already in
the candidate list is duplicated. -/
theorem reconcile_by_id_dedup (types : List String) (smf : SalesmapFieldsMap)
    (recs : List RecommendedField)
    (hreg : ((registryFields types smf).map fieldKey).Nodup) :
    ((fieldsByObject types smf recs).map fieldKey).Nodup ∧
      ∀ f ∈ fieldsByObject types smf recs, f ∈ registryFields types smf ∨
        (f.needsCreation = true ∧ f.ftype = "text" ∧ f.required = false ∧
          f.isCustom = false) :=
  ⟨addRecommended_foldl_keys_nodup smf recs _ hreg,
    fun f hf => mem_addRecommended_foldl smf recs _ f hf⟩

/-- C7 witness: the amended theorem at the counterexample schema and one
recommended field. -/
theorem reconcile_by_id_dedup_w :
    ((fieldsByObject ["company"]
        [("company", [⟨"rev1", "revenue", "number", false, false, false⟩])]
        [⟨"company", "revenue", "Revenue"⟩]).map fieldKey).Nodup ∧
      ∀ f ∈ fieldsByObject ["company"]
          [("company", [⟨"rev1", "revenue", "number", false, false, false⟩])]
          [⟨"company", "revenue", "Revenue"⟩],
        f ∈ registryFields ["company"]
            [("company", [⟨"rev1", "revenue", "number", false, false, false⟩])] ∨
          (f.needsCreation = true ∧ f.ftype = "text" ∧ f.required = false ∧
            f.isCustom = false) :=
  reconcile_by_id_dedup ["company"]
    [("company", [⟨"rev1", "revenue", "number", false, false, false⟩])]
    [⟨"company", "revenue", "Revenue"⟩] (by decide)

/-- Appending the suffix makes `jsEndsWith` true. -/
theorem jsEndsWith_append (s t : String) : jsEndsWith (s ++ t) t = true := by
  simp [jsEndsWith, String.data_append]

/-- C8 counterexample: the custom field is `(people, custom_1)`; the sole
mapping targets `company.custom_1`, which does not reference it — yet the
removal cascade deletes that mapping too, because it filters on the
`.custom_1` suffix alone. -/
theorem remove_custom_field_cascade_cex :
    removeCustomFieldMappings [⟨"colA", "company.custom_1"⟩]
        (exField "people" "custom_1" "등급" false).id = [] ∧
      (⟨"colA", "company.custom_1"⟩ : FieldMapping).target_field ≠
        (exField "people" "custom_1" "등급" false).objectType ++ "." ++
          (exField "people" "custom_1" "등급" false).id := by decide

/-- C8 (amended): removing a custom field C removes exactly the mappings
whose target field ends in `"." ++ C.id`: every mapping actually referencing
C is removed, but so is any mapping whose target merely carries the same id
suffix under another object type; mappings without the suffix are kept. -/
theorem remove_custom_field_cascade (mappings : List FieldMapping)
    (C : ExtendedCRMField) (m : FieldMapping) (hm : m ∈ mappings) :
    (m.target_field = C.objectType ++ "." ++ C.id →
        m ∉ removeCustomFieldMappings mappings C.id) ∧
      (jsEndsWith m.target_field ("." ++ C.id) = false →
        m ∈ removeCustomFieldMappings mappings C.id) ∧
      (m ∈ removeCustomFieldMappings mappings C.id →
        jsEndsWith m.target_field ("." ++ C.id) = false) := by
  refine ⟨?_, ?_, ?_⟩
  · intro htgt hmem
    rcases List.mem_filter.mp hmem with ⟨-, hcond⟩
    rw [htgt] at hcond
    have hsuf : jsEndsWith (C.objectType ++ "." ++ C.id) ("." ++ C.id)
        = true := by
      rw [String.append_assoc]
      exact jsEndsWith_append _ _
    simp [hsuf] at hcond
  · intro h
    exact List.mem_filter.mpr ⟨hm, by simp [h]⟩
  · intro hmem
    rcases List.mem_filter.mp hmem with ⟨-, hcond⟩
    simpa using hcond

/-- C8 witness: the amended theorem for the mapping `colA ↦ people.custom_1`
and the custom field `(people, custom_1)` — the referencing mapping is
removed. -/
theorem remove_custom_field_cascade_w :
    ((⟨"colA", "people.custom_1"⟩ : FieldMapping).target_field =
        (exField "people" "custom_1" "등급" false).objectType ++ "." ++
          (exField "people" "custom_1" "등급" false).id →
      (⟨"colA", "people.custom_1"⟩ : FieldMapping) ∉
        removeCustomFieldMappings
          [⟨"colA", "people.custom_1"⟩, ⟨"colB", "company.name"⟩]
          (exField "people" "custom_1" "등급" false).id) ∧
      (jsEndsWith (⟨"colA", "people.custom_1"⟩ : FieldMapping).target_field
          ("." ++ (exField "people" "custom_1" "등급" false).id) = false →
        (⟨"colA", "people.custom_1"⟩ : FieldMapping) ∈
          removeCustomFieldMappings
            [⟨"colA", "people.custom_1"⟩, ⟨"colB", "company.name"⟩]
            (exField "people" "custom_1" "등급" false).id) ∧
      ((⟨"colA", "people.custom_1"⟩ : FieldMapping) ∈
          removeCustomFieldMappings
            [⟨"colA", "people.custom_1"⟩, ⟨"colB", "company.name"⟩]
            (exField "people" "custom_1" "등급" false).id →
        jsEndsWith (⟨"colA", "people.custom_1"⟩ : FieldMapping).target_field
          ("." ++ (exField "people" "custom_1" "등급" false).id) = false) :=
  remove_custom_field_cascade
    [⟨"colA", "people.custom_1"⟩, ⟨"colB", "company.name"⟩]
    (exField "people" "custom_1" "등급" false)
    ⟨"colA", "people.custom_1"⟩ (by decide)

/-- The index-filter of `importData` agrees with index-enumeration followed
by membership filtering, for any start index. -/
theorem filterByValidIdx_eq_enumFrom {α : Type} (valid : List Nat) :
    ∀ (rows : List α) (i : Nat),
      filterByValidIdx valid i rows =
        ((rows.enumFrom i).filter fun p => decide (p.1 ∈ valid)).map
          Prod.snd := by
  intro rows
  induction rows with
  | nil => intro i; rfl
  | cons r rs ih =>
      intro i
      simp only [filterByValidIdx, List.enumFrom, List.filter_cons]
      by_cases h : i ∈ valid
      · simp [h, ih (i + 1)]
      · simp [h, ih (i + 1)]

/-- C9: `importData` with a valid-row-index list exports exactly the rows
whose 0-based index is a member of the list, in their original order, and
on success reports `imported_count` equal to the number of such rows with
an empty `errors` list. -/
theorem import_valid_rows_spec {α : Type} (rows : List α)
    (valid : List Nat) :
    importFiltered rows (some valid) = specSelectedRows rows valid ∧
      importDataSuccess rows (some valid) =
        { success := true,
          imported_count := (specSelectedRows rows valid).length,
          errors := [] } := by
  have h : importFiltered rows (some valid) = specSelectedRows rows valid :=
    filterByValidIdx_eq_enumFrom valid rows 0
  exact ⟨h, by simp [importDataSuccess, h]⟩

end OnBoarding
